import Mathlib

/-!
Verification of the Missionaries-and-Cannibals puzzle core
(src/constants.py, src/model.py, src/controller.py).

The embedding mirrors the Python source.  Python integers are modelled as
Int and Python lists as List.  The two pixel coordinates the logic reads
(boat x position and target) are floats in the source, but the only values
they ever take are the integers 320, 323, …, 680 and every operation
performed on them (adding ±3, subtracting, comparing with 2) is exact on
such floats, so they are modelled as Int; the eating timer accumulates
arbitrary frame times and is modelled as ℚ, on which the float additions
and the comparison against 2.5 are likewise exact.  Fallible Python code
is modelled in the Except
monad: src/model.py lines 40–41 bind the method objects
missionaries_right / cannibals_right without calling them, so the
comparison at line 42 compares a bound method with an int, which raises
TypeError in Python 3; the embedding of is_valid therefore returns
Except.error on the path that reaches line 42.
-/

inductive PyErr where
  | typeErr
deriving DecidableEq

inductive BoatPosition where
  | LEFT
  | RIGHT
deriving DecidableEq

inductive GameScreen where
  | WELCOME
  | PLAYING
  | EATING
  | WON
  | LOST
deriving DecidableEq

/-- Configuration of the puzzle, mirroring class GameState of src/model.py. -/
structure GameState where
  missionaries_left : Int
  cannibals_left : Int
  boat : BoatPosition
deriving DecidableEq

/-- Mirrors GameState.missionaries_right (the method body, as called). -/
def GameState.missionaries_right (s : GameState) : Int :=
  3 - s.missionaries_left

/-- Mirrors GameState.cannibals_right (the method body, as called). -/
def GameState.cannibals_right (s : GameState) : Int :=
  3 - s.cannibals_left

/-- Mirrors GameState.is_valid of src/model.py.  Lines 40–41 of the source
assign the bound method objects (no call parentheses), so the comparison
at line 42 raises TypeError whenever control reaches it; that path is the
Except.error branch.  Consequently the function can return False (range
violation or a left-bank violation) but can never return True. -/
def GameState.is_valid (s : GameState) : Except PyErr Bool :=
  if ¬ (0 ≤ s.missionaries_left ∧ s.missionaries_left ≤ 3) then .ok false
  else if ¬ (0 ≤ s.cannibals_left ∧ s.cannibals_left ≤ 3) then .ok false
  else if 0 < s.missionaries_left ∧ s.missionaries_left < s.cannibals_left then .ok false
  else .error .typeErr

/-- Mirrors GameState.is_goal of src/model.py. -/
def GameState.is_goal (s : GameState) : Bool :=
  decide (s.missionaries_left = 0 ∧ s.cannibals_left = 0 ∧ s.boat = BoatPosition.RIGHT)

abbrev Move := Int × Int

/-- The fixed move enumeration of build_state_graph (src/model.py line 56). -/
def possible_moves : List Move :=
  [(1, 0), (2, 0), (0, 1), (0, 2), (1, 1)]

/-- Inner loop of build_state_graph (src/model.py lines 65–84): the
candidate transitions out of one source state.  is_valid on the resulting
state may raise, so the accumulation runs in Except. -/
def build_transitions (m_left c_left : Int) (boat : BoatPosition) :
    Except PyErr (List (Move × GameState)) :=
  possible_moves.foldlM
    (fun transitions mv =>
      match boat with
      | .LEFT =>
        if mv.1 > m_left ∨ mv.2 > c_left then pure transitions
        else do
          let new_state : GameState := ⟨m_left - mv.1, c_left - mv.2, .RIGHT⟩
          let ok ← new_state.is_valid
          pure (if ok then transitions ++ [(mv, new_state)] else transitions)
      | .RIGHT =>
        if mv.1 > 3 - m_left ∨ mv.2 > 3 - c_left then pure transitions
        else do
          let new_state : GameState := ⟨m_left + mv.1, c_left + mv.2, .LEFT⟩
          let ok ← new_state.is_valid
          pure (if ok then transitions ++ [(mv, new_state)] else transitions))
    []

/-- Mirrors build_state_graph of src/model.py.  The Python dict keyed by
fresh GameState objects (no custom eq or hash) only ever gains fresh
identity keys, so it is modelled as an association list built by
appending.  Every is_valid call runs in Except and propagates the
TypeError of the bound-method comparison. -/
def build_state_graph : Except PyErr (List (GameState × List (Move × GameState))) :=
  ([0, 1, 2, 3] : List Int).foldlM
    (fun g m_left =>
      ([0, 1, 2, 3] : List Int).foldlM
        (fun g c_left =>
          [BoatPosition.LEFT, BoatPosition.RIGHT].foldlM
            (fun g boat => do
              let state : GameState := ⟨m_left, c_left, boat⟩
              let v ← state.is_valid
              if ¬ v then pure g
              else do
                let ts ← build_transitions m_left c_left boat
                pure (g ++ [(state, ts)]))
            g)
        g)
    []

/-- Modelled from the spec: the intended two-sided safety check of §3/§9
(both banks: missionaries present must not be outnumbered), i.e. the
source's is_valid with the two missing call parentheses restored.  The
source function itself raises instead of performing the right-bank
check. -/
def is_valid_spec (s : GameState) : Bool :=
  decide ((0 ≤ s.missionaries_left ∧ s.missionaries_left ≤ 3) ∧
    (0 ≤ s.cannibals_left ∧ s.cannibals_left ≤ 3) ∧
    ¬ (0 < s.missionaries_left ∧ s.missionaries_left < s.cannibals_left) ∧
    ¬ (0 < s.missionaries_right ∧ s.missionaries_right < s.cannibals_right))

/-- Modelled from the spec: the StateGraph construction of §4.1 — the
loops of build_state_graph with the intended safety check in place of the
raising one.  Total, since is_valid_spec is total. -/
def build_transitions_spec (m_left c_left : Int) (boat : BoatPosition) :
    List (Move × GameState) :=
  possible_moves.foldl
    (fun transitions mv =>
      match boat with
      | .LEFT =>
        if mv.1 > m_left ∨ mv.2 > c_left then transitions
        else
          let new_state : GameState := ⟨m_left - mv.1, c_left - mv.2, .RIGHT⟩
          if is_valid_spec new_state then transitions ++ [(mv, new_state)] else transitions
      | .RIGHT =>
        if mv.1 > 3 - m_left ∨ mv.2 > 3 - c_left then transitions
        else
          let new_state : GameState := ⟨m_left + mv.1, c_left + mv.2, .LEFT⟩
          if is_valid_spec new_state then transitions ++ [(mv, new_state)] else transitions)
    []

/-- Modelled from the spec: the full §4.1 StateGraph as an association
list from each safe Configuration to its ordered outgoing edges. -/
def build_state_graph_spec : List (GameState × List (Move × GameState)) :=
  ([0, 1, 2, 3] : List Int).foldl
    (fun g m_left =>
      ([0, 1, 2, 3] : List Int).foldl
        (fun g c_left =>
          [BoatPosition.LEFT, BoatPosition.RIGHT].foldl
            (fun g boat =>
              let state : GameState := ⟨m_left, c_left, boat⟩
              if ¬ is_valid_spec state then g
              else g ++ [(state, build_transitions_spec m_left c_left boat)])
            g)
        g)
    []

/-- Modelled from the spec: the edgesFrom query of §4.1 — ordered edge
sequence of a configuration, empty when the configuration is not a key
(the source never defines or uses such an accessor; state_graph is built
at controller init and never read). -/
def edgesFrom (g : List (GameState × List (Move × GameState))) (s : GameState) :
    List (Move × GameState) :=
  match g.find? (fun p => decide (p.1 = s)) with
  | some p => p.2
  | none => []

/-- C1: the claim expects GameState.is_valid to return False exactly on
configurations with an outnumbered bank, and True otherwise.  In the code
the right-bank comparison is performed on a bound method object, so
is_valid never returns True for any configuration: every run either
returns False on the range or left-bank checks, or raises TypeError; in
particular the right-bank-outnumbered configuration (2,0,LEFT) — right
bank holds 1 missionary and 3 cannibals — raises instead of returning
False. -/
theorem is_valid_never_true_and_right_bank_raises :
    (∀ s : GameState,
      GameState.is_valid s = Except.ok false ∨
      GameState.is_valid s = Except.error PyErr.typeErr) ∧
    GameState.is_valid ⟨2, 0, BoatPosition.LEFT⟩ = Except.error PyErr.typeErr := by
  constructor
  · intro s
    unfold GameState.is_valid
    split
    · exact Or.inl rfl
    · split
      · exact Or.inl rfl
      · split
        · exact Or.inl rfl
        · exact Or.inr rfl
  · rfl

/-- C4: the claim describes the edges that build_state_graph records; in
the code the very first enumerated state (0,0,LEFT) already sends
is_valid into the bound-method comparison, the TypeError propagates, and
the construction aborts without recording anything. -/
theorem build_state_graph_raises :
    build_state_graph = Except.error PyErr.typeErr := by
  rfl

inductive CharType where
  | missionary
  | cannibal
deriving DecidableEq

inductive Side where
  | left
  | right
deriving DecidableEq

/-- The logical fields of class Character (src/model.py).  The purely
visual fields (pixels, wobble, eat timer, visibility) drive no branch of
the controller logic and are omitted. -/
structure Character where
  char_type : CharType
  side : Side
  selected : Bool
  in_boat : Bool
  being_eaten : Bool
deriving DecidableEq

/-- The expression picking the bank string of the current boat side,
inlined at src/controller.py lines 122 and 157. -/
def boat_side_of : BoatPosition → Side
  | .LEFT => .left
  | .RIGHT => .right

def BOAT_LEFT_X : Int := 320
def BOAT_RIGHT_X : Int := 680
def BOAT_SPEED : Int := 3
def EATING_DURATION : ℚ := 2

/-- The logical fields of GameController (src/controller.py).  The
character objects of self.missionaries ++ self.cannibals are indexed 0–5;
boat.passengers and selected_characters hold indices into that list. -/
structure Controller where
  state : GameState
  move_count : Nat
  current_screen : GameScreen
  eating_timer : ℚ
  chars : List Character
  passengers : List Nat
  selected_characters : List Nat
  boat_x : Int
  boat_target_x : Int
  boat_is_moving : Bool
deriving DecidableEq

/-- The state produced by reset_game (src/controller.py lines 89–111):
initial configuration, zero counter, PLAYING screen, three missionaries
and three cannibals on the left bank, a fresh boat at the left position,
empty passenger and selection lists. -/
def freshGame : Controller where
  state := ⟨3, 3, .LEFT⟩
  move_count := 0
  current_screen := .PLAYING
  eating_timer := 0
  chars :=
    [⟨.missionary, .left, false, false, false⟩,
     ⟨.missionary, .left, false, false, false⟩,
     ⟨.missionary, .left, false, false, false⟩,
     ⟨.cannibal, .left, false, false, false⟩,
     ⟨.cannibal, .left, false, false, false⟩,
     ⟨.cannibal, .left, false, false, false⟩]
  passengers := []
  selected_characters := []
  boat_x := BOAT_LEFT_X
  boat_target_x := BOAT_LEFT_X
  boat_is_moving := false

/-- Mirrors GameController.reset_game: every modelled field is
reassigned, so the result does not depend on the prior state. -/
def reset_game (_c : Controller) : Controller := freshGame

/-- In-place mutation of the character object at index i, as Python's
references into both self.missionaries/cannibals and boat.passengers
achieve it on the single shared object. -/
def modifyChar (f : Character → Character) (cs : List Character) (i : Nat) :
    List Character :=
  match cs[i]? with
  | some ch => cs.set i (f ch)
  | none => cs

/-- Mirrors GameController.handle_character_click (lines 117–135), with
the clicked character given by its index. -/
def handle_character_click (c : Controller) (i : Nat) : Controller :=
  if c.boat_is_moving then c
  else
    match c.chars[i]? with
    | none => c
    | some ch =>
      let boat_side := boat_side_of c.state.boat
      if ch.in_boat then
        { c with
          chars := c.chars.set i { ch with selected := false, in_boat := false, side := boat_side },
          passengers := c.passengers.erase i,
          selected_characters := c.selected_characters.erase i }
      else if ch.side = boat_side ∧ c.passengers.length < 2 then
        { c with
          chars := c.chars.set i { ch with selected := true, in_boat := true },
          passengers := c.passengers ++ [i],
          selected_characters := c.selected_characters ++ [i] }
      else c

/-- The passenger tally of try_cross_river (lines 142–143). -/
def tally (c : Controller) (t : CharType) : Nat :=
  c.passengers.countP (fun i =>
    match c.chars[i]? with
    | some ch => decide (ch.char_type = t)
    | none => false)

/-- The configuration that try_cross_river commits (lines 145–154). -/
def committed_state (c : Controller) : GameState :=
  match c.state.boat with
  | .LEFT =>
    ⟨c.state.missionaries_left - (tally c .missionary : Int),
     c.state.cannibals_left - (tally c .cannibal : Int), .RIGHT⟩
  | .RIGHT =>
    ⟨c.state.missionaries_left + (tally c .missionary : Int),
     c.state.cannibals_left + (tally c .cannibal : Int), .LEFT⟩

/-- Mirrors GameController.try_cross_river (lines 137–161): no legality
lookup is performed — when the boat is idle and passengers exist, the
tallied move is committed unconditionally, the counter incremented, the
boat sent to the other bank, and each passenger's side updated. -/
def try_cross_river (c : Controller) : Controller :=
  if c.boat_is_moving ∨ c.passengers = [] then c
  else
    let new_state := committed_state c
    let new_side := boat_side_of new_state.boat
    { c with
      state := new_state,
      move_count := c.move_count + 1,
      boat_target_x := if new_state.boat = .LEFT then BOAT_LEFT_X else BOAT_RIGHT_X,
      boat_is_moving := true,
      chars := c.passengers.foldl (modifyChar (fun ch => { ch with side := new_side })) c.chars }

/-- The per-character body of the loop at src/controller.py lines
179–181: a missionary standing on the losing side is marked as being
eaten. -/
def markEaten (losing : Option Side) (ch : Character) : Character :=
  if ch.char_type = .missionary ∧ some ch.side = losing
  then { ch with being_eaten := true } else ch

/-- Mirrors GameController.start_eating_animation (lines 163–181): the
losing side is recomputed from the configuration (here the methods are
called with parentheses), and missionaries standing on it are marked as
being eaten. -/
def start_eating_animation (c : Controller) : Controller :=
  let m_left := c.state.missionaries_left
  let c_left := c.state.cannibals_left
  let m_right := c.state.missionaries_right
  let c_right := c.state.cannibals_right
  let losing_side : Option Side :=
    if 0 < m_right ∧ m_right < c_right then some .right
    else if 0 < m_left ∧ m_left < c_left then some .left
    else none
  { c with
    current_screen := .EATING,
    eating_timer := 0,
    chars := c.chars.map (markEaten losing_side) }

/-- Mirrors GameController.finish_crossing (lines 183–196): passengers
disembark, then the goal and safety checks run; the safety check calls
the raising is_valid, so the whole step runs in Except. -/
def finish_crossing (c : Controller) : Except PyErr Controller :=
  let c1 : Controller :=
    { c with
      chars := c.passengers.foldl
        (modifyChar (fun ch => { ch with in_boat := false, selected := false })) c.chars,
      passengers := [],
      selected_characters := [] }
  if c1.state.is_goal then pure { c1 with current_screen := .WON }
  else do
    let v ← c1.state.is_valid
    if ¬ v then pure (start_eating_animation c1)
    else pure c1

/-- The boat part of GameController.update: Boat.update (src/model.py
lines 185–194) on the x coordinate and moving flag. -/
def boatStep (c : Controller) : Controller :=
  let dx := c.boat_target_x - c.boat_x
  if 2 < |dx| then
    { c with
      boat_x := c.boat_x + (if dx < 0 then -BOAT_SPEED else BOAT_SPEED),
      boat_is_moving := true }
  else
    { c with boat_x := c.boat_target_x, boat_is_moving := false }

/-- Mirrors GameController.update (lines 198–219); Character.update only
touches unmodelled visual fields.  finish_crossing may raise, so the step
runs in Except. -/
def update (c : Controller) (dt : ℚ) : Except PyErr Controller :=
  if c.current_screen = .EATING then
    let c1 := { c with eating_timer := c.eating_timer + dt }
    if EATING_DURATION + 1/2 ≤ c1.eating_timer
    then pure { c1 with current_screen := .LOST }
    else pure c1
  else if ¬ c.current_screen = .PLAYING then pure c
  else
    let was_moving := c.boat_is_moving
    let c1 := boatStep c
    if was_moving ∧ ¬ c1.boat_is_moving then finish_crossing c1
    else pure c1

/-- Iterated frame updates with a fixed time step: n + 1 frames are the
first n frames followed by one more update. -/
def updates (c : Controller) (dt : ℚ) : Nat → Except PyErr Controller
  | 0 => pure c
  | n + 1 => do
    let c1 ← updates c dt n
    update c1 dt

/-- The configuration arithmetic a crossing commits, as written in
try_cross_river (src/controller.py lines 145–152), abstracted over the
tallied pair. -/
def apply_move (s : GameState) (mv : Move) : GameState :=
  match s.boat with
  | .LEFT => ⟨s.missionaries_left - mv.1, s.cannibals_left - mv.2, .RIGHT⟩
  | .RIGHT => ⟨s.missionaries_left + mv.1, s.cannibals_left + mv.2, .LEFT⟩

/-- The left bank does not lose: no missionary present, or missionaries
are not outnumbered there. -/
def bank_safe_left (s : GameState) : Prop :=
  s.missionaries_left ≤ 0 ∨ s.cannibals_left ≤ s.missionaries_left

/-- The right bank does not lose: no missionary present, or missionaries
are not outnumbered there. -/
def bank_safe_right (s : GameState) : Prop :=
  s.missionaries_right ≤ 0 ∨ s.cannibals_right ≤ s.missionaries_right

/-- The controller state after booking the first two missionaries onto
the boat from the fresh game: passengers are indices 0 and 1. -/
def boardedTwoMissionaries : Controller :=
  handle_character_click (handle_character_click freshGame 0) 1

/-- C2 counterexample: from (3,3,LEFT) with two missionaries boarded, the
tallied pair (2,0) is not among the edges of the (spec-modelled)
StateGraph at the current configuration — its result (1,3,RIGHT) is
unsafe — yet try_cross_river commits it: the configuration is replaced
and the move counter incremented, instead of the claimed rejection with
unchanged state. -/
theorem cross_commits_pair_absent_from_graph :
    tally boardedTwoMissionaries CharType.missionary = 2 ∧
    tally boardedTwoMissionaries CharType.cannibal = 0 ∧
    boardedTwoMissionaries.state = ⟨3, 3, BoatPosition.LEFT⟩ ∧
    decide (((2 : Int), (0 : Int)) ∈
      (edgesFrom build_state_graph_spec ⟨3, 3, BoatPosition.LEFT⟩).map Prod.fst) = false ∧
    boardedTwoMissionaries.move_count = 0 ∧
    (try_cross_river boardedTwoMissionaries).move_count = 1 ∧
    (try_cross_river boardedTwoMissionaries).state = ⟨1, 3, BoatPosition.RIGHT⟩ := by
  refine ⟨by decide, by decide, by decide, by decide, by decide, by decide, by decide⟩

/-- C2 amended: try_cross_river performs no StateGraph lookup at all —
whenever the boat is idle and the boarding set is non-empty, the tallied
move is committed unconditionally (configuration replaced by the
crossing arithmetic, counter incremented, boat sent off), legal edge or
not; only a moving boat or an empty boarding set leaves the controller
unchanged. -/
theorem cross_always_commits (c : Controller)
    (h1 : c.boat_is_moving = false) (h2 : c.passengers ≠ []) :
    (try_cross_river c).state = committed_state c ∧
    (try_cross_river c).move_count = c.move_count + 1 ∧
    (try_cross_river c).boat_is_moving = true := by
  unfold try_cross_river
  rw [if_neg (by simp [h1, h2])]
  exact ⟨rfl, rfl, rfl⟩

/-- Witness for cross_always_commits at the boarded-two-missionaries
state. -/
theorem cross_always_commits_w :
    (try_cross_river boardedTwoMissionaries).state = committed_state boardedTwoMissionaries ∧
    (try_cross_river boardedTwoMissionaries).move_count = boardedTwoMissionaries.move_count + 1 ∧
    (try_cross_river boardedTwoMissionaries).boat_is_moving = true :=
  cross_always_commits boardedTwoMissionaries (by decide) (by decide)

/-- C3 counterexample: the crossing that produces the unsafe
configuration (1,3,RIGHT) — one missionary and three cannibals left
behind on the left bank — does not leave the session Lost immediately
after try_cross_river returns: the screen is still PLAYING (the boat is
only now departing), although the committed configuration is already the
unsafe one. -/
theorem unsafe_crossing_not_lost_immediately :
    (try_cross_river boardedTwoMissionaries).state = ⟨1, 3, BoatPosition.RIGHT⟩ ∧
    is_valid_spec ⟨1, 3, BoatPosition.RIGHT⟩ = false ∧
    (try_cross_river boardedTwoMissionaries).current_screen = GameScreen.PLAYING ∧
    (try_cross_river boardedTwoMissionaries).boat_is_moving = true := by
  refine ⟨by decide, by decide, by decide, by decide⟩

deriving instance DecidableEq for Except

/-- One frame step peeled off the back of an update run. -/
theorem updates_succ (c : Controller) (dt : ℚ) (n : Nat) :
    updates c dt (n + 1) = Bind.bind (updates c dt n) (fun c1 => update c1 dt) :=
  rfl

/-- The controller state when the boat carrying the two missionaries has
arrived on the right bank and the eating animation has just started:
configuration (1,3,RIGHT), EATING screen, the left-bank missionary
marked as being eaten. -/
def afterLossArrival : Controller where
  state := ⟨1, 3, .RIGHT⟩
  move_count := 1
  current_screen := .EATING
  eating_timer := 0
  chars :=
    [⟨.missionary, .right, false, false, false⟩,
     ⟨.missionary, .right, false, false, false⟩,
     ⟨.missionary, .left, false, false, true⟩,
     ⟨.cannibal, .left, false, false, false⟩,
     ⟨.cannibal, .left, false, false, false⟩,
     ⟨.cannibal, .left, false, false, false⟩]
  passengers := []
  selected_characters := []
  boat_x := BOAT_RIGHT_X
  boat_target_x := BOAT_RIGHT_X
  boat_is_moving := false

set_option maxRecDepth 100000 in
/-- After 121 frames the boat has crossed, finish_crossing has run, and
the eating animation is in progress. -/
theorem loss_trace_to_arrival :
    updates (try_cross_river boardedTwoMissionaries) 3 121 = Except.ok afterLossArrival := by
  decide

/-- The next frame pushes the eating timer past EATING_DURATION + 0.5 and
the screen becomes LOST. -/
theorem loss_trace_final_step :
    update afterLossArrival 3 =
      Except.ok { afterLossArrival with
        eating_timer := afterLossArrival.eating_timer + 3,
        current_screen := GameScreen.LOST } := by
  unfold update
  split
  · dsimp only
    split
    · rfl
    · next hle =>
        exact absurd (by norm_num [EATING_DURATION, afterLossArrival]) hle
  · next hne => exact absurd rfl hne

/-- C3 amended: for the committed crossing producing (1,3,RIGHT) — 1
missionary and 3 cannibals on the left bank — the Lost screen is reached
once the boat transit is processed and the eating animation has run
(here 122 frame updates at 3 time units each), and the losing side is
the left bank: exactly the missionary standing on the left is marked as
being eaten, matching the rule missionaries present and outnumbered. -/
theorem unsafe_crossing_eventually_lost_on_left :
    (updates (try_cross_river boardedTwoMissionaries) 3 122).map
      (fun c => (c.current_screen, c.state,
        c.chars.map (fun ch => (ch.char_type, ch.side, ch.being_eaten)))) =
    Except.ok (GameScreen.LOST, (⟨1, 3, BoatPosition.RIGHT⟩ : GameState),
      [(CharType.missionary, Side.right, false),
       (CharType.missionary, Side.right, false),
       (CharType.missionary, Side.left, true),
       (CharType.cannibal, Side.left, false),
       (CharType.cannibal, Side.left, false),
       (CharType.cannibal, Side.left, false)]) := by
  rw [updates_succ, loss_trace_to_arrival]
  show (update afterLossArrival 3).map _ = _
  rw [loss_trace_final_step]
  rfl

/-- C5: the edgesFrom query (modelled from the spec, §4.1) is a total
function — it returns the empty sequence both on configurations failing
the safety invariant and on configurations not recorded as keys of the
StateGraph, never an error. -/
theorem edgesFrom_unsafe_or_unknown_empty (s : GameState) :
    (is_valid_spec s = false → edgesFrom build_state_graph_spec s = []) ∧
    (decide (s ∈ build_state_graph_spec.map Prod.fst) = false →
      edgesFrom build_state_graph_spec s = []) := by
  have key : ∀ p ∈ build_state_graph_spec, is_valid_spec p.1 = true := by decide
  constructor
  · intro h1
    unfold edgesFrom
    cases hfind : build_state_graph_spec.find? (fun p => decide (p.1 = s)) with
    | none => rfl
    | some pr =>
      exfalso
      have hp : pr.1 = s := by
        have h' := List.find?_some hfind
        simpa using h'
      have hv := key pr (List.mem_of_find?_eq_some hfind)
      rw [hp, h1] at hv
      exact Bool.false_ne_true hv
  · intro h2
    unfold edgesFrom
    cases hfind : build_state_graph_spec.find? (fun p => decide (p.1 = s)) with
    | none => rfl
    | some pr =>
      exfalso
      have hp : pr.1 = s := by
        have h' := List.find?_some hfind
        simpa using h'
      have hmem : s ∈ build_state_graph_spec.map Prod.fst :=
        List.mem_map.mpr ⟨pr, List.mem_of_find?_eq_some hfind, hp⟩
      rw [decide_eq_true hmem] at h2
      exact Bool.noConfusion h2

/-- Witness for edgesFrom_unsafe_or_unknown_empty at the unsafe,
unrecorded configuration (1,3,LEFT). -/
theorem edgesFrom_unsafe_or_unknown_empty_w :
    is_valid_spec ⟨1, 3, BoatPosition.LEFT⟩ = false ∧
    edgesFrom build_state_graph_spec ⟨1, 3, BoatPosition.LEFT⟩ = [] :=
  ⟨by decide, (edgesFrom_unsafe_or_unknown_empty ⟨1, 3, BoatPosition.LEFT⟩).1 (by decide)⟩

/-- Helper: with three missionaries and three cannibals in total and the
right-bank counts derived as complements, the two banks can never lose
simultaneously. -/
theorem banks_not_both_lost (s : GameState) : bank_safe_left s ∨ bank_safe_right s := by
  unfold bank_safe_left bank_safe_right GameState.missionaries_right GameState.cannibals_right
  omega

/-- C6: a single committed crossing from a safe configuration leaves at
most one bank losing — the crossing arithmetic always keeps at least one
bank free of outnumbered missionaries. -/
theorem committed_move_at_most_one_bank_loses (s : GameState) (mv : Move)
    (hs : is_valid_spec s = true) (hmv : mv ∈ possible_moves) :
    bank_safe_left (apply_move s mv) ∨ bank_safe_right (apply_move s mv) :=
  banks_not_both_lost (apply_move s mv)

/-- Witness for committed_move_at_most_one_bank_loses at (3,3,LEFT) with
the losing move (2,0). -/
theorem committed_move_at_most_one_bank_loses_w :
    is_valid_spec ⟨3, 3, BoatPosition.LEFT⟩ = true ∧
    (bank_safe_left (apply_move ⟨3, 3, BoatPosition.LEFT⟩ (2, 0)) ∨
     bank_safe_right (apply_move ⟨3, 3, BoatPosition.LEFT⟩ (2, 0))) :=
  ⟨by decide,
   committed_move_at_most_one_bank_loses ⟨3, 3, BoatPosition.LEFT⟩ (2, 0) (by decide) (by decide)⟩

/-- C7: reset_game reassigns every session field, so from any controller
state it yields exactly the initial configuration (3,3,LEFT), empty
boarding and selection sets, zero move counter and the PLAYING screen. -/
theorem reset_restores_initial (c : Controller) :
    (reset_game c).state = ⟨3, 3, BoatPosition.LEFT⟩ ∧
    (reset_game c).passengers = [] ∧
    (reset_game c).selected_characters = [] ∧
    (reset_game c).move_count = 0 ∧
    (reset_game c).current_screen = GameScreen.PLAYING ∧
    reset_game c = freshGame :=
  ⟨rfl, rfl, rfl, rfl, rfl, rfl⟩

/-- C8: handle_character_click while Playing with the boat idle (the
spec's state machine treats boat-in-transit as the separate Crossing
state): a boarded character is always unboarded, its side set to the
boat's bank; an unboarded character boards exactly when it stands on the
boat's bank and fewer than two passengers are aboard, and otherwise the
click is a no-op; in every case the configuration and the move counter
are untouched. -/
theorem toggle_board_cases (c : Controller) (i : Nat) (ch : Character)
    (hplay : c.current_screen = GameScreen.PLAYING)
    (hidle : c.boat_is_moving = false)
    (hch : c.chars[i]? = some ch) :
    ((handle_character_click c i).state = c.state ∧
     (handle_character_click c i).move_count = c.move_count) ∧
    (ch.in_boat = true →
      handle_character_click c i =
        { c with
          chars := c.chars.set i
            { ch with selected := false, in_boat := false, side := boat_side_of c.state.boat },
          passengers := c.passengers.erase i,
          selected_characters := c.selected_characters.erase i }) ∧
    (ch.in_boat = false → ch.side = boat_side_of c.state.boat → c.passengers.length < 2 →
      handle_character_click c i =
        { c with
          chars := c.chars.set i { ch with selected := true, in_boat := true },
          passengers := c.passengers ++ [i],
          selected_characters := c.selected_characters ++ [i] }) ∧
    (ch.in_boat = false →
      decide (ch.side = boat_side_of c.state.boat ∧ c.passengers.length < 2) = false →
      handle_character_click c i = c) := by
  have hclick : handle_character_click c i =
      (if ch.in_boat then
        { c with
          chars := c.chars.set i
            { ch with selected := false, in_boat := false, side := boat_side_of c.state.boat },
          passengers := c.passengers.erase i,
          selected_characters := c.selected_characters.erase i }
      else if ch.side = boat_side_of c.state.boat ∧ c.passengers.length < 2 then
        { c with
          chars := c.chars.set i { ch with selected := true, in_boat := true },
          passengers := c.passengers ++ [i],
          selected_characters := c.selected_characters ++ [i] }
      else c) := by
    unfold handle_character_click
    rw [hidle, hch]
    simp only [Bool.false_eq_true, if_false]
  refine ⟨?_, ?_, ?_, ?_⟩
  · rw [hclick]
    split
    · exact ⟨rfl, rfl⟩
    · split
      · exact ⟨rfl, rfl⟩
      · exact ⟨rfl, rfl⟩
  · intro hb
    rw [hclick, hb]
    simp only [if_true]
  · intro hb hside hlen
    rw [hclick, hb]
    simp only [Bool.false_eq_true, if_false]
    rw [if_pos ⟨hside, hlen⟩]
  · intro hb hcond
    rw [hclick, hb]
    simp only [Bool.false_eq_true, if_false]
    rw [if_neg (of_decide_eq_false hcond)]

/-- Witness for toggle_board_cases: clicking the first missionary of the
fresh game boards it. -/
theorem toggle_board_cases_w :
    (handle_character_click freshGame 0).passengers = freshGame.passengers ++ [0] ∧
    (handle_character_click freshGame 0).state = freshGame.state := by
  have h := toggle_board_cases freshGame 0
    ⟨CharType.missionary, Side.left, false, false, false⟩ rfl rfl rfl
  refine ⟨?_, h.1.1⟩
  rw [h.2.2.1 rfl rfl (by decide)]

/-- The controller after Scenario A: from the fresh game, board the first
two cannibals (indices 3 and 4) and cross. -/
def scenarioA : Controller :=
  try_cross_river (handle_character_click (handle_character_click freshGame 3) 4)

/-- C9: Scenario A — boarding two cannibals from the start and crossing
commits configuration (3,1,RIGHT) with the screen still PLAYING and move
count 1; and a crossing attempt with an empty boarding set is a complete
no-op. -/
theorem scenario_a_and_empty_attempt_noop :
    (scenarioA.state = ⟨3, 1, BoatPosition.RIGHT⟩ ∧
     scenarioA.current_screen = GameScreen.PLAYING ∧
     scenarioA.move_count = 1) ∧
    ∀ c : Controller, c.passengers = [] → try_cross_river c = c := by
  constructor
  · exact ⟨by decide, by decide, by decide⟩
  · intro c h
    unfold try_cross_river
    rw [if_pos (Or.inr h)]

/-- Witness for the no-op half of scenario_a_and_empty_attempt_noop at
the fresh game. -/
theorem scenario_a_and_empty_attempt_noop_w :
    freshGame.passengers = [] ∧ try_cross_river freshGame = freshGame :=
  ⟨rfl, scenario_a_and_empty_attempt_noop.2 freshGame rfl⟩

/-- A character of type t standing on the left bank. -/
def isLeftOf (t : CharType) (ch : Character) : Bool :=
  decide (ch.char_type = t ∧ ch.side = Side.left)

/-- Number of characters of type t standing on the left bank. -/
def leftCount (t : CharType) (cs : List Character) : Nat :=
  cs.countP (isLeftOf t)

/-- The passenger tally computed against an explicit character list. -/
def tallyOf (cs : List Character) (pass : List Nat) (t : CharType) : Nat :=
  pass.countP (fun i =>
    match cs[i]? with
    | some ch => decide (ch.char_type = t)
    | none => false)

theorem tally_eq_tallyOf (c : Controller) (t : CharType) :
    tally c t = tallyOf c.chars c.passengers t := rfl

/-- Replacing one list element exchanges its contribution to countP. -/
theorem countP_set_char (p : Character → Bool) (cs : List Character) (i : Nat)
    (ch ch' : Character) (h : cs[i]? = some ch) :
    (cs.set i ch').countP p + (if p ch then 1 else 0) =
      cs.countP p + (if p ch' then 1 else 0) := by
  induction cs generalizing i with
  | nil => exact absurd h (by simp)
  | cons a t ih =>
    cases i with
    | zero =>
      rw [List.getElem?_cons_zero] at h
      injection h with h
      subst h
      rw [List.set_cons_zero, List.countP_cons, List.countP_cons]
      omega
    | succ n =>
      rw [List.getElem?_cons_succ] at h
      rw [List.set_cons_succ, List.countP_cons, List.countP_cons]
      have := ih n h
      omega

/-- Pointwise description of modifyChar. -/
theorem modifyChar_getElem (f : Character → Character) (cs : List Character) (i j : Nat) :
    (modifyChar f cs i)[j]? = if i = j then Option.map f cs[j]? else cs[j]? := by
  unfold modifyChar
  cases hch : cs[i]? with
  | none =>
    by_cases hij : i = j
    · subst hij
      rw [if_pos rfl, hch]
      rfl
    · rw [if_neg hij]
  | some ch =>
    obtain ⟨hlt, hget⟩ := List.getElem?_eq_some.mp hch
    by_cases hij : i = j
    · subst hij
      rw [if_pos rfl, hch, List.getElem?_set, if_pos rfl, if_pos hlt]
      rfl
    · rw [if_neg hij, List.getElem?_set_ne hij]

/-- Pointwise description of a fold of modifyChar over a list of indices,
for an idempotent modification. -/
theorem foldl_modifyChar_getElem (f : Character → Character)
    (hf : ∀ ch, f (f ch) = f ch) (pass : List Nat) (cs : List Character) (j : Nat) :
    (pass.foldl (modifyChar f) cs)[j]? =
      if j ∈ pass then Option.map f cs[j]? else cs[j]? := by
  induction pass generalizing cs with
  | nil => simp
  | cons i rest ih =>
    rw [List.foldl_cons, ih]
    by_cases hj : j ∈ rest
    · rw [if_pos hj, if_pos (List.mem_cons_of_mem i hj), modifyChar_getElem]
      by_cases hij : i = j
      · rw [if_pos hij]
        cases cs[j]? with
        | none => rfl
        | some ch => simp [hf]
      · rw [if_neg hij]
    · rw [if_neg hj, modifyChar_getElem]
      by_cases hij : i = j
      · subst hij
        rw [if_pos rfl, if_pos (List.mem_cons_self i rest)]
      · rw [if_neg hij, if_neg (fun hmem => by
          rcases List.mem_cons.mp hmem with h | h
          · exact hij h.symm
          · exact hj h : ¬ j ∈ i :: rest)]

/-- A fold of modifyChar leaves countP unchanged when the modification
preserves the counted predicate. -/
theorem countP_foldl_modifyChar (p : Character → Bool) (f : Character → Character)
    (hpf : ∀ ch, p (f ch) = p ch) (pass : List Nat) (cs : List Character) :
    (pass.foldl (modifyChar f) cs).countP p = cs.countP p := by
  induction pass generalizing cs with
  | nil => rfl
  | cons i rest ih =>
    rw [List.foldl_cons, ih]
    unfold modifyChar
    cases hch : cs[i]? with
    | none => rfl
    | some ch =>
      show (cs.set i (f ch)).countP p = cs.countP p
      have h2 := countP_set_char p cs i ch (f ch) hch
      rw [hpf] at h2
      omega

/-- A fold of modifyChar leaves the character types unchanged when the
modification preserves them. -/
theorem map_charType_foldl_modifyChar (f : Character → Character)
    (hf : ∀ ch, (f ch).char_type = ch.char_type) (hidem : ∀ ch, f (f ch) = f ch)
    (pass : List Nat) (cs : List Character) :
    (pass.foldl (modifyChar f) cs).map Character.char_type =
      cs.map Character.char_type := by
  apply List.ext_getElem?
  intro n
  rw [List.getElem?_map, List.getElem?_map, foldl_modifyChar_getElem f hidem]
  by_cases hn : n ∈ pass
  · rw [if_pos hn]
    cases cs[n]? with
    | none => rfl
    | some ch => simp [hf]
  · rw [if_neg hn]

/-- Moving the distinct passengers, each standing on the left, to the
right bank removes exactly the passenger tally from the left count. -/
theorem leftCount_fold_depart (t : CharType) (pass : List Nat) (cs : List Character)
    (hnd : pass.Nodup)
    (hp : ∀ i ∈ pass, ∃ ch, cs[i]? = some ch ∧ ch.side = Side.left) :
    leftCount t (pass.foldl (modifyChar (fun ch => { ch with side := Side.right })) cs)
      + tallyOf cs pass t = leftCount t cs := by
  induction pass generalizing cs with
  | nil => simp [tallyOf, leftCount]
  | cons i rest ih =>
    obtain ⟨ch, hch, hside⟩ := hp i (List.mem_cons_self i rest)
    have hni : i ∉ rest := (List.nodup_cons.mp hnd).1
    have hndr : rest.Nodup := (List.nodup_cons.mp hnd).2
    rw [List.foldl_cons]
    have hstep : leftCount t (modifyChar (fun ch => { ch with side := Side.right }) cs i)
        + (if decide (ch.char_type = t) then 1 else 0) = leftCount t cs := by
      unfold modifyChar leftCount
      rw [hch]
      have h2 := countP_set_char (isLeftOf t) cs i ch { ch with side := Side.right } hch
      have e1 : isLeftOf t ch = decide (ch.char_type = t) := by
        simp [isLeftOf, hside]
      have e2 : isLeftOf t { ch with side := Side.right } = false := by
        simp [isLeftOf]
      rw [e1, e2] at h2
      simpa using h2
    have hpt : ∀ j, j ≠ i →
        (modifyChar (fun ch => { ch with side := Side.right }) cs i)[j]? = cs[j]? := by
      intro j hj
      rw [modifyChar_getElem, if_neg (fun hh => hj hh.symm)]
    have hp' : ∀ j ∈ rest, ∃ ch',
        (modifyChar (fun ch => { ch with side := Side.right }) cs i)[j]? = some ch' ∧
        ch'.side = Side.left := by
      intro j hj
      obtain ⟨ch', hch', hside'⟩ := hp j (List.mem_cons_of_mem i hj)
      refine ⟨ch', ?_, hside'⟩
      rw [hpt j (fun he => hni (he ▸ hj))]
      exact hch'
    have htally : tallyOf (modifyChar (fun ch => { ch with side := Side.right }) cs i) rest t
        = tallyOf cs rest t := by
      unfold tallyOf
      apply List.countP_congr
      intro j hj
      rw [hpt j (fun he => hni (he ▸ hj))]
    have hexp : tallyOf cs (i :: rest) t
        = tallyOf cs rest t + (if decide (ch.char_type = t) then 1 else 0) := by
      unfold tallyOf
      rw [List.countP_cons]
      simp only [hch]
    have hih := ih (modifyChar (fun ch => { ch with side := Side.right }) cs i) hndr hp'
    rw [htally] at hih
    omega

/-- Moving the distinct passengers, each standing on the right, to the
left bank adds exactly the passenger tally to the left count. -/
theorem leftCount_fold_arrive (t : CharType) (pass : List Nat) (cs : List Character)
    (hnd : pass.Nodup)
    (hp : ∀ i ∈ pass, ∃ ch, cs[i]? = some ch ∧ ch.side = Side.right) :
    leftCount t (pass.foldl (modifyChar (fun ch => { ch with side := Side.left })) cs)
      = leftCount t cs + tallyOf cs pass t := by
  induction pass generalizing cs with
  | nil => simp [tallyOf, leftCount]
  | cons i rest ih =>
    obtain ⟨ch, hch, hside⟩ := hp i (List.mem_cons_self i rest)
    have hni : i ∉ rest := (List.nodup_cons.mp hnd).1
    have hndr : rest.Nodup := (List.nodup_cons.mp hnd).2
    rw [List.foldl_cons]
    have hstep : leftCount t (modifyChar (fun ch => { ch with side := Side.left }) cs i)
        = leftCount t cs + (if decide (ch.char_type = t) then 1 else 0) := by
      unfold modifyChar leftCount
      rw [hch]
      have h2 := countP_set_char (isLeftOf t) cs i ch { ch with side := Side.left } hch
      have e1 : isLeftOf t ch = false := by
        simp [isLeftOf, hside]
      have e2 : isLeftOf t { ch with side := Side.left } = decide (ch.char_type = t) := by
        simp [isLeftOf]
      rw [e1, e2] at h2
      simpa using h2
    have hpt : ∀ j, j ≠ i →
        (modifyChar (fun ch => { ch with side := Side.left }) cs i)[j]? = cs[j]? := by
      intro j hj
      rw [modifyChar_getElem, if_neg (fun hh => hj hh.symm)]
    have hp' : ∀ j ∈ rest, ∃ ch',
        (modifyChar (fun ch => { ch with side := Side.left }) cs i)[j]? = some ch' ∧
        ch'.side = Side.right := by
      intro j hj
      obtain ⟨ch', hch', hside'⟩ := hp j (List.mem_cons_of_mem i hj)
      refine ⟨ch', ?_, hside'⟩
      rw [hpt j (fun he => hni (he ▸ hj))]
      exact hch'
    have htally : tallyOf (modifyChar (fun ch => { ch with side := Side.left }) cs i) rest t
        = tallyOf cs rest t := by
      unfold tallyOf
      apply List.countP_congr
      intro j hj
      rw [hpt j (fun he => hni (he ▸ hj))]
    have hexp : tallyOf cs (i :: rest) t
        = tallyOf cs rest t + (if decide (ch.char_type = t) then 1 else 0) := by
      unfold tallyOf
      rw [List.countP_cons]
      simp only [hch]
    have hih := ih (modifyChar (fun ch => { ch with side := Side.left }) cs i) hndr hp'
    rw [htally] at hih
    omega

/-- The session invariant tying the committed configuration to the
character tokens: the bank counts are the numbers of tokens of each type
standing on the left bank, the six tokens are three missionaries followed
by three cannibals, the passenger list holds exactly the boarded tokens,
without duplicates, and every boarded token stands on the boat's bank. -/
structure SessionInv (c : Controller) : Prop where
  mcount : c.state.missionaries_left = (leftCount CharType.missionary c.chars : Int)
  ccount : c.state.cannibals_left = (leftCount CharType.cannibal c.chars : Int)
  types : c.chars.map Character.char_type =
    [CharType.missionary, CharType.missionary, CharType.missionary,
     CharType.cannibal, CharType.cannibal, CharType.cannibal]
  pass_mem : ∀ i ∈ c.passengers, ∃ ch, c.chars[i]? = some ch ∧ ch.in_boat = true ∧
    ch.side = boat_side_of c.state.boat
  nodup : c.passengers.Nodup
  boarded_mem : ∀ i ch, c.chars[i]? = some ch → ch.in_boat = true → i ∈ c.passengers

theorem inv_fresh : SessionInv freshGame := by
  constructor
  · decide
  · decide
  · decide
  · intro i hi
    exact absurd hi (List.not_mem_nil i)
  · exact List.nodup_nil
  · intro i ch hch hb
    have hmem := List.getElem?_mem hch
    simp only [freshGame, List.mem_cons, List.not_mem_nil, or_false] at hmem
    rcases hmem with h | h | h | h | h | h <;> subst h <;> exact Bool.noConfusion hb

theorem inv_reset (c : Controller) : SessionInv (reset_game c) := inv_fresh

/-- Case description of a character click: either nothing happens, or a
boarded character is unboarded, or an idle-boat same-bank character
boards while fewer than two passengers are aboard. -/
theorem handle_click_eq (c : Controller) (i : Nat) :
    handle_character_click c i = c ∨
    (∃ ch, c.chars[i]? = some ch ∧ c.boat_is_moving = false ∧ ch.in_boat = true ∧
      handle_character_click c i = { c with
        chars := c.chars.set i
          { ch with selected := false, in_boat := false, side := boat_side_of c.state.boat },
        passengers := c.passengers.erase i,
        selected_characters := c.selected_characters.erase i }) ∨
    (∃ ch, c.chars[i]? = some ch ∧ c.boat_is_moving = false ∧ ch.in_boat = false ∧
      ch.side = boat_side_of c.state.boat ∧ c.passengers.length < 2 ∧
      handle_character_click c i = { c with
        chars := c.chars.set i { ch with selected := true, in_boat := true },
        passengers := c.passengers ++ [i],
        selected_characters := c.selected_characters ++ [i] }) := by
  unfold handle_character_click
  split
  · exact Or.inl rfl
  · next hmv =>
    have hmv' : c.boat_is_moving = false := Bool.not_eq_true _ ▸ Bool.of_not_eq_true hmv
    split
    · exact Or.inl rfl
    · next ch heq =>
      dsimp only
      split
      · next hb => exact Or.inr (Or.inl ⟨ch, heq, hmv', hb, rfl⟩)
      · next hb =>
        have hb' : ch.in_boat = false := Bool.of_not_eq_true hb
        split
        · next hcond => exact Or.inr (Or.inr ⟨ch, heq, hmv', hb', hcond.1, hcond.2, rfl⟩)
        · exact Or.inl rfl

theorem inv_click (c : Controller) (i : Nat) (h : SessionInv c) :
    SessionInv (handle_character_click c i) := by
  rcases handle_click_eq c i with hres | ⟨ch, heq, hmv, hb, hres⟩ |
    ⟨ch, heq, hmv, hb, hside, hlen, hres⟩
  · rw [hres]; exact h
  · -- unboard
    have hi : i ∈ c.passengers := h.boarded_mem i ch heq hb
    have hside : ch.side = boat_side_of c.state.boat := by
      obtain ⟨ch2, heq2, _, hs2⟩ := h.pass_mem i hi
      rw [heq] at heq2
      injection heq2 with heq2
      rw [heq2]
      exact hs2
    have hlen : i < c.chars.length := (List.getElem?_eq_some.mp heq).1
    have hcount : ∀ t, leftCount t (c.chars.set i
        { ch with selected := false, in_boat := false, side := boat_side_of c.state.boat }) =
        leftCount t c.chars := by
      intro t
      have h2 := countP_set_char (isLeftOf t) c.chars i ch
        { ch with selected := false, in_boat := false, side := boat_side_of c.state.boat } heq
      have e : isLeftOf t
          { ch with selected := false, in_boat := false, side := boat_side_of c.state.boat } =
          isLeftOf t ch := by
        simp [isLeftOf, hside]
      rw [e] at h2
      unfold leftCount
      omega
    rw [hres]
    constructor
    · show c.state.missionaries_left = (leftCount CharType.missionary _ : Int)
      rw [hcount]
      exact h.mcount
    · show c.state.cannibals_left = (leftCount CharType.cannibal _ : Int)
      rw [hcount]
      exact h.ccount
    · show (c.chars.set i _).map Character.char_type = _
      rw [← h.types]
      apply List.ext_getElem?
      intro n
      rw [List.getElem?_map, List.getElem?_map, List.getElem?_set]
      by_cases hin : i = n
      · subst hin
        rw [if_pos rfl, if_pos hlen, heq]
        rfl
      · rw [if_neg hin]
    · intro j hj
      have hj' : j ∈ c.passengers := List.mem_of_mem_erase hj
      have hji : j ≠ i := ((h.nodup.mem_erase_iff).mp hj).1
      obtain ⟨ch2, heq2, hb2, hs2⟩ := h.pass_mem j hj'
      refine ⟨ch2, ?_, hb2, hs2⟩
      rw [List.getElem?_set_ne (fun he => hji he.symm)]
      exact heq2
    · exact h.nodup.erase i
    · intro j ch2 hch2 hb2
      by_cases hji : j = i
      · subst hji
        rw [List.getElem?_set_self hlen] at hch2
        injection hch2 with hch2
        rw [← hch2] at hb2
        exact Bool.noConfusion hb2
      · rw [List.getElem?_set_ne (fun he => hji he.symm)] at hch2
        have := h.boarded_mem j ch2 hch2 hb2
        exact (h.nodup.mem_erase_iff).mpr ⟨hji, this⟩
  · -- board
    have hnotin : i ∉ c.passengers := by
      intro him
      obtain ⟨ch2, heq2, hb2, _⟩ := h.pass_mem i him
      rw [heq] at heq2
      injection heq2 with heq2
      rw [← heq2] at hb2
      rw [hb] at hb2
      exact Bool.noConfusion hb2
    have hltn : i < c.chars.length := (List.getElem?_eq_some.mp heq).1
    have hcount : ∀ t, leftCount t (c.chars.set i
        { ch with selected := true, in_boat := true }) = leftCount t c.chars := by
      intro t
      have h2 := countP_set_char (isLeftOf t) c.chars i ch
        { ch with selected := true, in_boat := true } heq
      have e : isLeftOf t { ch with selected := true, in_boat := true } = isLeftOf t ch := rfl
      rw [e] at h2
      unfold leftCount
      omega
    rw [hres]
    constructor
    · show c.state.missionaries_left = (leftCount CharType.missionary _ : Int)
      rw [hcount]
      exact h.mcount
    · show c.state.cannibals_left = (leftCount CharType.cannibal _ : Int)
      rw [hcount]
      exact h.ccount
    · show (c.chars.set i _).map Character.char_type = _
      rw [← h.types]
      apply List.ext_getElem?
      intro n
      rw [List.getElem?_map, List.getElem?_map, List.getElem?_set]
      by_cases hin : i = n
      · subst hin
        rw [if_pos rfl, if_pos hltn, heq]
        rfl
      · rw [if_neg hin]
    · intro j hj
      rcases List.mem_append.mp hj with hjp | hji
      · have hji : j ≠ i := fun he => hnotin (he ▸ hjp)
        obtain ⟨ch2, heq2, hb2, hs2⟩ := h.pass_mem j hjp
        refine ⟨ch2, ?_, hb2, hs2⟩
        rw [List.getElem?_set_ne (fun he => hji he.symm)]
        exact heq2
      · have hji : j = i := by simpa using hji
        subst hji
        refine ⟨{ ch with selected := true, in_boat := true }, ?_, rfl, hside⟩
        exact List.getElem?_set_self hltn
    · refine List.nodup_append.mpr ⟨h.nodup, List.nodup_singleton i, ?_⟩
      intro a ha hb2
      have : a = i := by simpa using hb2
      exact hnotin (this ▸ ha)
    · intro j ch2 hch2 hb2
      by_cases hji : j = i
      · subst hji
        exact List.mem_append.mpr (Or.inr (by simp))
      · rw [List.getElem?_set_ne (fun he => hji he.symm)] at hch2
        exact List.mem_append.mpr (Or.inl (h.boarded_mem j ch2 hch2 hb2))

theorem leftCount_foldl_modifyChar (t : CharType) (f : Character → Character)
    (hpf : ∀ ch, isLeftOf t (f ch) = isLeftOf t ch) (pass : List Nat) (cs : List Character) :
    leftCount t (pass.foldl (modifyChar f) cs) = leftCount t cs :=
  countP_foldl_modifyChar (isLeftOf t) f hpf pass cs

theorem exceptBind_ok {α β : Type} (a : α) (f : α → Except PyErr β) :
    (Bind.bind (Except.ok a) f : Except PyErr β) = f a := rfl

theorem exceptBind_error {α β : Type} (e : PyErr) (f : α → Except PyErr β) :
    (Bind.bind (Except.error e) f : Except PyErr β) = Except.error e := rfl

theorem inv_cross (c : Controller) (h : SessionInv c) :
    SessionInv (try_cross_river c) := by
  unfold try_cross_river
  split
  · exact h
  · dsimp only
    cases hboat : c.state.boat with
    | LEFT =>
      have hm : committed_state c =
          ⟨c.state.missionaries_left - (tally c CharType.missionary : Int),
           c.state.cannibals_left - (tally c CharType.cannibal : Int), .RIGHT⟩ := by
        unfold committed_state
        rw [hboat]
      rw [hm]
      dsimp only [boat_side_of]
      have hpl : ∀ i ∈ c.passengers, ∃ ch, c.chars[i]? = some ch ∧ ch.side = Side.left := by
        intro i hi
        obtain ⟨ch, h1, _, h3⟩ := h.pass_mem i hi
        refine ⟨ch, h1, ?_⟩
        rw [h3, hboat]
        rfl
      refine ⟨?_, ?_, ?_, ?_, ?_, ?_⟩
      · have hdep := leftCount_fold_depart CharType.missionary c.passengers c.chars h.nodup hpl
        rw [← tally_eq_tallyOf] at hdep
        have hmc := h.mcount
        dsimp only
        omega
      · have hdep := leftCount_fold_depart CharType.cannibal c.passengers c.chars h.nodup hpl
        rw [← tally_eq_tallyOf] at hdep
        have hcc := h.ccount
        dsimp only
        omega
      · dsimp only
        rw [map_charType_foldl_modifyChar (fun ch => { ch with side := Side.right })
          (fun ch => rfl) (fun ch => rfl)]
        exact h.types
      · dsimp only
        intro i hi
        obtain ⟨ch, h1, h2, _⟩ := h.pass_mem i hi
        refine ⟨{ ch with side := Side.right }, ?_, h2, rfl⟩
        rw [foldl_modifyChar_getElem (fun ch => { ch with side := Side.right })
          (fun ch => rfl), if_pos hi, h1]
        rfl
      · exact h.nodup
      · dsimp only
        intro j ch2 hch2 hb2
        by_cases hj : j ∈ c.passengers
        · exact hj
        · rw [foldl_modifyChar_getElem (fun ch => { ch with side := Side.right })
            (fun ch => rfl), if_neg hj] at hch2
          exact h.boarded_mem j ch2 hch2 hb2
    | RIGHT =>
      have hm : committed_state c =
          ⟨c.state.missionaries_left + (tally c CharType.missionary : Int),
           c.state.cannibals_left + (tally c CharType.cannibal : Int), .LEFT⟩ := by
        unfold committed_state
        rw [hboat]
      rw [hm]
      dsimp only [boat_side_of]
      have hpr : ∀ i ∈ c.passengers, ∃ ch, c.chars[i]? = some ch ∧ ch.side = Side.right := by
        intro i hi
        obtain ⟨ch, h1, _, h3⟩ := h.pass_mem i hi
        refine ⟨ch, h1, ?_⟩
        rw [h3, hboat]
        rfl
      refine ⟨?_, ?_, ?_, ?_, ?_, ?_⟩
      · have harr := leftCount_fold_arrive CharType.missionary c.passengers c.chars h.nodup hpr
        rw [← tally_eq_tallyOf] at harr
        have hmc := h.mcount
        dsimp only
        omega
      · have harr := leftCount_fold_arrive CharType.cannibal c.passengers c.chars h.nodup hpr
        rw [← tally_eq_tallyOf] at harr
        have hcc := h.ccount
        dsimp only
        omega
      · dsimp only
        rw [map_charType_foldl_modifyChar (fun ch => { ch with side := Side.left })
          (fun ch => rfl) (fun ch => rfl)]
        exact h.types
      · dsimp only
        intro i hi
        obtain ⟨ch, h1, h2, _⟩ := h.pass_mem i hi
        refine ⟨{ ch with side := Side.left }, ?_, h2, rfl⟩
        rw [foldl_modifyChar_getElem (fun ch => { ch with side := Side.left })
          (fun ch => rfl), if_pos hi, h1]
        rfl
      · exact h.nodup
      · dsimp only
        intro j ch2 hch2 hb2
        by_cases hj : j ∈ c.passengers
        · exact hj
        · rw [foldl_modifyChar_getElem (fun ch => { ch with side := Side.left })
            (fun ch => rfl), if_neg hj] at hch2
          exact h.boarded_mem j ch2 hch2 hb2

theorem inv_boatStep (c : Controller) (h : SessionInv c) : SessionInv (boatStep c) := by
  unfold boatStep
  dsimp only
  split
  · exact ⟨h.mcount, h.ccount, h.types, h.pass_mem, h.nodup, h.boarded_mem⟩
  · exact ⟨h.mcount, h.ccount, h.types, h.pass_mem, h.nodup, h.boarded_mem⟩

theorem inv_disembark (c : Controller) (h : SessionInv c) :
    SessionInv { c with
      chars := c.passengers.foldl
        (modifyChar (fun ch => { ch with in_boat := false, selected := false })) c.chars,
      passengers := ([] : List Nat),
      selected_characters := ([] : List Nat) } := by
  refine ⟨?_, ?_, ?_, ?_, ?_, ?_⟩
  · dsimp only
    rw [leftCount_foldl_modifyChar CharType.missionary
      (fun ch => { ch with in_boat := false, selected := false }) (fun ch => rfl)]
    exact h.mcount
  · dsimp only
    rw [leftCount_foldl_modifyChar CharType.cannibal
      (fun ch => { ch with in_boat := false, selected := false }) (fun ch => rfl)]
    exact h.ccount
  · dsimp only
    rw [map_charType_foldl_modifyChar (fun ch => { ch with in_boat := false, selected := false })
      (fun ch => rfl) (fun ch => rfl)]
    exact h.types
  · intro i hi
    exact absurd hi (List.not_mem_nil i)
  · exact List.nodup_nil
  · dsimp only
    intro j ch2 hch2 hb2
    exfalso
    rw [foldl_modifyChar_getElem (fun ch => { ch with in_boat := false, selected := false })
      (fun ch => rfl)] at hch2
    by_cases hj : j ∈ c.passengers
    · rw [if_pos hj] at hch2
      cases hcs : c.chars[j]? with
      | none =>
        rw [hcs] at hch2
        exact Option.noConfusion hch2
      | some ch3 =>
        rw [hcs] at hch2
        injection hch2 with hch2
        rw [← hch2] at hb2
        exact Bool.noConfusion hb2
    · rw [if_neg hj] at hch2
      exact hj (h.boarded_mem j ch2 hch2 hb2)

theorem isLeftOf_markEaten (t : CharType) (L : Option Side) (ch : Character) :
    isLeftOf t (markEaten L ch) = isLeftOf t ch := by
  unfold markEaten
  split <;> rfl

theorem charType_markEaten (L : Option Side) (ch : Character) :
    (markEaten L ch).char_type = ch.char_type := by
  unfold markEaten
  split <;> rfl

theorem inBoat_markEaten (L : Option Side) (ch : Character) :
    (markEaten L ch).in_boat = ch.in_boat := by
  unfold markEaten
  split <;> rfl

theorem side_markEaten (L : Option Side) (ch : Character) :
    (markEaten L ch).side = ch.side := by
  unfold markEaten
  split <;> rfl

theorem leftCount_map_markEaten (t : CharType) (L : Option Side) (cs : List Character) :
    leftCount t (cs.map (markEaten L)) = leftCount t cs := by
  unfold leftCount
  rw [List.countP_map]
  exact List.countP_congr (fun ch _ => by simp [Function.comp, isLeftOf_markEaten])

theorem inv_mark (c : Controller) (L : Option Side) (h : SessionInv c) :
    SessionInv { c with
      current_screen := GameScreen.EATING,
      eating_timer := 0,
      chars := c.chars.map (markEaten L) } := by
  refine ⟨?_, ?_, ?_, ?_, ?_, ?_⟩
  · dsimp only
    rw [leftCount_map_markEaten]
    exact h.mcount
  · dsimp only
    rw [leftCount_map_markEaten]
    exact h.ccount
  · dsimp only
    rw [List.map_map]
    have e : c.chars.map (Character.char_type ∘ markEaten L) =
        c.chars.map Character.char_type := by
      apply List.map_congr_left
      intro ch _
      simp [Function.comp, charType_markEaten]
    rw [e]
    exact h.types
  · dsimp only
    intro i hi
    obtain ⟨ch, h1, h2, h3⟩ := h.pass_mem i hi
    refine ⟨markEaten L ch, ?_, ?_, ?_⟩
    · rw [List.getElem?_map, h1]
      rfl
    · rw [inBoat_markEaten]
      exact h2
    · rw [side_markEaten]
      exact h3
  · exact h.nodup
  · dsimp only
    intro j ch2 hch2 hb2
    rw [List.getElem?_map] at hch2
    cases hcs : c.chars[j]? with
    | none =>
      rw [hcs] at hch2
      exact Option.noConfusion hch2
    | some ch3 =>
      rw [hcs] at hch2
      injection hch2 with hch2
      rw [← hch2, inBoat_markEaten] at hb2
      exact h.boarded_mem j ch3 hcs hb2

theorem inv_eating (c : Controller) (h : SessionInv c) :
    SessionInv (start_eating_animation c) := by
  unfold start_eating_animation
  dsimp only
  exact inv_mark c _ h

theorem inv_finish (c c' : Controller) (h : SessionInv c)
    (hu : finish_crossing c = Except.ok c') : SessionInv c' := by
  have h1 := inv_disembark c h
  unfold finish_crossing at hu
  dsimp only at hu
  split at hu
  · have hcc := Except.ok.inj hu
    subst hcc
    exact ⟨h1.mcount, h1.ccount, h1.types, h1.pass_mem, h1.nodup, h1.boarded_mem⟩
  · cases hv : GameState.is_valid c.state with
    | error e =>
      rw [hv, exceptBind_error] at hu
      exact Except.noConfusion hu
    | ok v =>
      rw [hv, exceptBind_ok] at hu
      split at hu
      · have hcc := Except.ok.inj hu
        subst hcc
        exact inv_eating _ h1
      · have hcc := Except.ok.inj hu
        subst hcc
        exact h1

theorem inv_update (c : Controller) (dt : ℚ) (c' : Controller) (h : SessionInv c)
    (hu : update c dt = Except.ok c') : SessionInv c' := by
  unfold update at hu
  split at hu
  · dsimp only at hu
    split at hu
    · have hcc := Except.ok.inj hu
      subst hcc
      exact ⟨h.mcount, h.ccount, h.types, h.pass_mem, h.nodup, h.boarded_mem⟩
    · have hcc := Except.ok.inj hu
      subst hcc
      exact ⟨h.mcount, h.ccount, h.types, h.pass_mem, h.nodup, h.boarded_mem⟩
  · split at hu
    · have hcc := Except.ok.inj hu
      subst hcc
      exact h
    · dsimp only at hu
      split at hu
      · exact inv_finish _ _ (inv_boatStep c h) hu
      · have hcc := Except.ok.inj hu
        subst hcc
        exact inv_boatStep c h

/-- The states reachable from reset through the public operations of the
controller: character clicks, crossing attempts, resets and frame
updates (a frame whose safety check raises produces no successor). -/
inductive Reachable : Controller → Prop where
  | start : Reachable freshGame
  | click (c : Controller) (i : Nat) : Reachable c → Reachable (handle_character_click c i)
  | cross (c : Controller) : Reachable c → Reachable (try_cross_river c)
  | restart (c : Controller) : Reachable c → Reachable (reset_game c)
  | frame (c c' : Controller) (dt : ℚ) : Reachable c → update c dt = Except.ok c' →
      Reachable c'

theorem leftCount_le_three (t : CharType) (cs : List Character)
    (h : cs.map Character.char_type =
      [CharType.missionary, CharType.missionary, CharType.missionary,
       CharType.cannibal, CharType.cannibal, CharType.cannibal]) :
    leftCount t cs ≤ 3 := by
  have h1 : leftCount t cs ≤ cs.countP (fun ch => decide (ch.char_type = t)) := by
    apply List.countP_mono_left
    intro ch _ hch
    simp only [isLeftOf, decide_eq_true_eq] at hch
    exact decide_eq_true hch.1
  have h2 := List.countP_map (fun x => decide (x = t)) Character.char_type cs
  rw [h] at h2
  have h3 : cs.countP ((fun x => decide (x = t)) ∘ Character.char_type)
      = cs.countP (fun ch => decide (ch.char_type = t)) := rfl
  cases t with
  | missionary =>
    have h4 : List.countP (fun x => decide (x = CharType.missionary))
        [CharType.missionary, CharType.missionary, CharType.missionary,
         CharType.cannibal, CharType.cannibal, CharType.cannibal] = 3 := by decide
    omega
  | cannibal =>
    have h4 : List.countP (fun x => decide (x = CharType.cannibal))
        [CharType.missionary, CharType.missionary, CharType.missionary,
         CharType.cannibal, CharType.cannibal, CharType.cannibal] = 3 := by decide
    omega

/-- C10: in every controller state reachable from reset through the
public operations, the left-bank counts stay within 0..3 — each count is
the number of tokens of its type on the left bank, of which there are
three in total — and the derived right-bank counts stay within 0..3 as
well. -/
theorem reachable_counts_in_range (c : Controller) (h : Reachable c) :
    (0 ≤ c.state.missionaries_left ∧ c.state.missionaries_left ≤ 3) ∧
    (0 ≤ c.state.cannibals_left ∧ c.state.cannibals_left ≤ 3) ∧
    (0 ≤ c.state.missionaries_right ∧ c.state.missionaries_right ≤ 3) ∧
    (0 ≤ c.state.cannibals_right ∧ c.state.cannibals_right ≤ 3) := by
  have hi : SessionInv c := by
    induction h with
    | start => exact inv_fresh
    | click c i hr ih => exact inv_click c i ih
    | cross c hr ih => exact inv_cross c ih
    | restart c hr ih => exact inv_reset c
    | frame c c2 dt hr hok ih => exact inv_update c dt c2 ih hok
  have h1 := leftCount_le_three CharType.missionary c.chars hi.types
  have h2 := leftCount_le_three CharType.cannibal c.chars hi.types
  have hm := hi.mcount
  have hc := hi.ccount
  unfold GameState.missionaries_right GameState.cannibals_right
  omega

/-- Witness for reachable_counts_in_range at the reset state itself. -/
theorem reachable_counts_in_range_w :
    (0 ≤ freshGame.state.missionaries_left ∧ freshGame.state.missionaries_left ≤ 3) ∧
    (0 ≤ freshGame.state.cannibals_left ∧ freshGame.state.cannibals_left ≤ 3) ∧
    (0 ≤ freshGame.state.missionaries_right ∧ freshGame.state.missionaries_right ≤ 3) ∧
    (0 ≤ freshGame.state.cannibals_right ∧ freshGame.state.cannibals_right ≤ 3) :=
  reachable_counts_in_range freshGame Reachable.start
